import Mathlib

/-!
# Verification of the Uptime monitoring & incident engine

Shallow embedding of the core of the `uptime` repository:
* `src/utils.ts` — `formatDuration`
* `src/monitor.ts` — `performCheck` (probe classification and the
  incident state machine) and `scheduleCheck` (per-site rearm loop)
* `src/notify.ts` — `renderTemplate`, `resolveTemplate`,
  `notifyDown`/`notifyUp`/`sendNotification`

Pure functions are translated directly; the stateful check cycle is
modelled as an explicit transition function on a per-site state record;
the fallible collaborators (Prisma persistence, WhatsApp transport) are
passed in as parameters returning `Except`/`Option` values.
-/

namespace Uptime

/-- Duration in whole seconds, rendered humanized.
Embeds `formatDuration` from `src/utils.ts`:
`< 60 → "<n>s"`, `< 3600 → "<m>m <s>s"` (seconds omitted when 0),
else `"<h>h <m>m"` (minutes omitted when 0). -/
def formatDuration (seconds : Nat) : String :=
  if seconds < 60 then toString seconds ++ "s"
  else if seconds < 3600 then
    let m := seconds / 60
    let s := seconds % 60
    if s > 0 then toString m ++ "m " ++ toString s ++ "s"
    else toString m ++ "m"
  else
    let h := seconds / 3600
    let m := (seconds % 3600) / 60
    if m > 0 then toString h ++ "h " ++ toString m ++ "m"
    else toString h ++ "h"

/-- Rendering rule as §4.3 of the spec words it: write `n` seconds as
`h` whole hours, `m` whole minutes and `s` leftover seconds, then pick
the shape by the magnitude of `n`. Used to compare the spec's wording
against `formatDuration`. -/
def specFormatDuration (n : Nat) : String :=
  let h := n / 3600
  let m := (n % 3600) / 60
  let s := n % 60
  if n < 60 then toString n ++ "s"
  else if n < 3600 then
    (if s = 0 then toString m ++ "m"
     else toString m ++ "m " ++ toString s ++ "s")
  else
    (if m = 0 then toString h ++ "h"
     else toString h ++ "h " ++ toString m ++ "m")

/-- Status recorded for one check: the code only ever stores the
strings `"up"` and `"down"`. -/
inductive CheckStatus
  | up
  | down
deriving DecidableEq, Repr

/-- A site's `lastStatus` field: `"up"`, `"down"`, or anything else
(the schema initialises it away from both; the dashboard shows it as
`unknown`/`pending`). Only the comparisons with `"up"` and `"down"`
matter to `performCheck`, so every other string is `unknown`. -/
inductive LastStatus
  | unknown
  | up
  | down
deriving DecidableEq, Repr

/-- Outcome of the guarded `fetch` inside `performCheck`: a response
with an HTTP status code, a rejection whose `name` is `"AbortError"`
(fired by the 15 s abort timer), or any other rejection carrying its
`message`. -/
inductive FetchOutcome
  | response (status : Nat)
  | abortError
  | networkError (msg : String)
deriving DecidableEq, Repr

/-- Normalized probe result assembled by `performCheck`
(`src/monitor.ts` lines 68–98): local variables `status`, `statusCode`,
`errorMessage` after the `try`/`catch`. -/
structure ProbeResult where
  status : CheckStatus
  statusCode : Option Nat
  errorMessage : Option String
deriving DecidableEq, Repr

/-- The probe-classification part of `performCheck`: starting from
`status = "down"`, `statusCode = null`, `errorMessage = null`, a
response sets `statusCode`, sets `status` by `res.status < 400`, and
sets `errorMessage = "HTTP <code>"` when down; the `catch` branch
keeps `statusCode` null and sets `errorMessage` to `"Timeout (15s)"`
for an `AbortError` and to `err.message` otherwise. -/
def classifyProbe : FetchOutcome → ProbeResult
  | .response c =>
      if c < 400 then
        { status := .up, statusCode := some c, errorMessage := none }
      else
        { status := .down, statusCode := some c,
          errorMessage := some ("HTTP " ++ toString c) }
  | .abortError =>
      { status := .down, statusCode := none,
        errorMessage := some "Timeout (15s)" }
  | .networkError m =>
      { status := .down, statusCode := none, errorMessage := some m }

/-- One row of the `Incident` table: site-local (the engine only ever
queries incidents of the site being checked, so the site reference is
implicit in the per-site state).
Modelled from the spec for the part of the schema not under `src/`:
`startedAt` defaults to the creation time (§4.2 "create a new Incident
with `startedAt = now`"), `resolvedAt`/`duration` are null until
resolution. Times are millisecond epoch integers (`Date.getTime`),
`duration` is in whole seconds. -/
structure Incident where
  id : Nat
  startedAt : Int
  resolvedAt : Option Int
  duration : Option Int
  downNotified : Bool
  upNotified : Bool
deriving DecidableEq, Repr

/-- One row of the `Check` table, as written by
`prisma.check.create` in `performCheck`. -/
structure CheckRow where
  status : CheckStatus
  statusCode : Option Nat
  responseTime : Int
  errorMessage : Option String
  checkedAt : Int
deriving DecidableEq, Repr

/-- The per-site persistent state that `performCheck` reads and
writes: the site's status fields plus the site's `Check` and
`Incident` rows, both newest-created first. `nextId` feeds fresh
incident ids. -/
structure SiteState where
  lastStatus : LastStatus
  lastCheckedAt : Option Int
  lastResponseMs : Option Int
  incidents : List Incident
  checks : List CheckRow
  nextId : Nat
deriving DecidableEq, Repr

/-- The notification `performCheck` triggers: `notifyDown` with the
error text and optional HTTP code on up→down, `notifyUp` with the
computed outage duration on a resolved down→up. -/
inductive NotifyEvent
  | down (error : String) (statusCode : Option Nat)
  | up (durationSeconds : Int)
deriving DecidableEq, Repr

/-- The value `performCheck` stores into `website.lastStatus`. -/
def LastStatus.ofCheck : CheckStatus → LastStatus
  | .up => .up
  | .down => .down

/-- Number of open incidents (rows with `resolvedAt` null). -/
def openCount (l : List Incident) : Nat :=
  (l.filter fun i => i.resolvedAt.isNone).length

/-- Accumulator step for `orderBy: { startedAt: "desc" } , findFirst`:
keep the incident started latest. -/
def pickLater (acc : Option Incident) (i : Incident) : Option Incident :=
  match acc with
  | none => some i
  | some j => if j.startedAt < i.startedAt then some i else acc

/-- Embeds `prisma.incident.findFirst({where: {websiteId, resolvedAt:
null}, orderBy: {startedAt: "desc"}})`: the open incident with the
latest start, if any. -/
def findOpenIncident (l : List Incident) : Option Incident :=
  (l.filter fun i => i.resolvedAt.isNone).foldl pickLater none

/-- The field update `prisma.incident.update` writes on resolution:
`resolvedAt`, `duration`, `upNotified: true`. -/
def resolvedWith (now dur : Int) (i : Incident) : Incident :=
  { i with resolvedAt := some now, duration := some dur,
           upNotified := true }

/-- Embeds `prisma.incident.update({where: {id}, data: {resolvedAt,
duration, upNotified: true}})` applied to the incident list. -/
def resolveIncidentRow (now dur : Int) (targetId : Nat)
    (l : List Incident) : List Incident :=
  l.map fun i => if i.id = targetId then resolvedWith now dur i else i

/-- The state-transition core of `performCheck`
(`src/monitor.ts` lines 99–146), after the probe produced `r` with
response time `respTime` at time `now` (ms): always append the Check
row and overwrite the site's status fields; on up→down create a fresh
open incident (with `downNotified: true`) and emit a down event; on
down→up resolve the most recent open incident — when one exists — with
`duration = Math.floor((now − startedAt) / 1000)` and emit an up
event; otherwise no incident side effect and no event. -/
def performCheck (now : Int) (r : ProbeResult) (respTime : Int)
    (s : SiteState) : SiteState × Option NotifyEvent :=
  let s1 : SiteState :=
    { s with
      checks := { status := r.status, statusCode := r.statusCode,
                  responseTime := respTime,
                  errorMessage := r.errorMessage,
                  checkedAt := now } :: s.checks,
      lastStatus := LastStatus.ofCheck r.status,
      lastCheckedAt := some now,
      lastResponseMs := some respTime }
  match s.lastStatus, r.status with
  | .up, .down =>
      ({ s1 with
          incidents :=
            { id := s.nextId, startedAt := now, resolvedAt := none,
              duration := none, downNotified := true,
              upNotified := false } :: s1.incidents,
          nextId := s.nextId + 1 },
       some (.down (r.errorMessage.getD "Unknown error") r.statusCode))
  | .down, .up =>
      (match findOpenIncident s1.incidents with
       | some inc =>
           let dur := Int.fdiv (now - inc.startedAt) 1000
           ({ s1 with
               incidents := resolveIncidentRow now dur inc.id s1.incidents },
            some (.up dur))
       | none => (s1, none))
  | _, _ => (s1, none)

/-- A site as it enters monitoring: `lastStatus` not yet `"up"` or
`"down"`, no checks, no incidents. -/
def initialState : SiteState :=
  { lastStatus := .unknown, lastCheckedAt := none,
    lastResponseMs := none, incidents := [], checks := [], nextId := 0 }

/-- One tick's inputs: the wall-clock time, the classified probe
result, and the measured response time. -/
structure Observation where
  now : Int
  result : ProbeResult
  responseTime : Int
deriving DecidableEq, Repr

/-- Run a sequence of ticks for one site (events discarded). -/
def runChecks (s : SiteState) : List Observation → SiteState
  | [] => s
  | o :: rest => runChecks (performCheck o.now o.result o.responseTime s).1 rest

/-- Repeat the same tick `n` times (events discarded). -/
def iterateCheck (now : Int) (r : ProbeResult) (t : Int) :
    Nat → SiteState → SiteState
  | 0, s => s
  | n + 1, s => iterateCheck now r t n (performCheck now r t s).1

/-- The coupled state invariant the engine maintains: at most one open
incident, and none at all unless the site's recorded status is
`"down"`. -/
def SiteInv (s : SiteState) : Prop :=
  openCount s.incidents ≤ 1 ∧
    (s.lastStatus ≠ .down → openCount s.incidents = 0)

/-- Concrete probe result of a successful HTTP 200 check, for
evaluating the theorems on concrete inputs. -/
def probeUp : ProbeResult :=
  { status := .up, statusCode := some 200, errorMessage := none }

/-- Concrete probe result of an HTTP 500 check. -/
def probeDown : ProbeResult :=
  { status := .down, statusCode := some 500,
    errorMessage := some "HTTP 500" }

/-- A concrete open incident started at time 0. -/
def inc0 : Incident :=
  { id := 0, startedAt := 0, resolvedAt := none, duration := none,
    downNotified := true, upNotified := false }

/-- A concrete site state that is down with one open incident. -/
def downState : SiteState :=
  { lastStatus := .down, lastCheckedAt := some 0,
    lastResponseMs := some 10, incidents := [inc0], checks := [],
    nextId := 1 }

/-- A concrete site state that is down with no incident on record
(e.g. the site was already down when monitoring began). -/
def downStateNoInc : SiteState :=
  { lastStatus := .down, lastCheckedAt := none, lastResponseMs := none,
    incidents := [], checks := [], nextId := 0 }

/-- JS regex `\w`: ASCII letters, digits and underscore. -/
def isWordChar (c : Char) : Bool := c.isAlpha || c.isDigit || c = '_'

/-- The replacement callback's `vars[key] ?? ""`. -/
def lookupVar (vars : String → Option String) (key : String) : String :=
  (vars key).getD ""

/-- Helper for the termination argument of `renderChars`. -/
theorem dropWhile_length_le (p : Char → Bool) :
    ∀ l : List Char, (l.dropWhile p).length ≤ l.length := by
  intro l
  induction l with
  | nil => simp [List.dropWhile]
  | cons c cs ih =>
    by_cases h : p c
    · simp only [List.dropWhile, h]
      exact Nat.le_trans ih (Nat.le_succ _)
    · simp [List.dropWhile, h]

/-- Character-level embedding of
`template.replace(/\{(\w+)\}/g, (_, key) => vars[key] ?? "")`
(`renderTemplate` in `src/notify.ts`): scan left to right; at a
left-brace followed by a non-empty run of word characters and a
right-brace, emit the looked-up value (missing key → empty string) and
continue after the right-brace; any other character, including
malformed or unclosed brace syntax, is copied verbatim. -/
def renderChars (vars : String → Option String) : List Char → List Char
  | [] => []
  | c :: rest =>
    if c = '{' ∧ rest.takeWhile isWordChar ≠ [] ∧
        (rest.dropWhile isWordChar).head? = some '}' then
      (lookupVar vars (String.mk (rest.takeWhile isWordChar))).data
        ++ renderChars vars (rest.dropWhile isWordChar).tail
    else c :: renderChars vars rest
  termination_by l => l.length
  decreasing_by
    · simp only [List.length_cons]
      have h1 := dropWhile_length_le isWordChar rest
      have h2 := List.length_tail (rest.dropWhile isWordChar)
      omega
    · simp only [List.length_cons]
      omega

/-- String-level `renderTemplate` from `src/notify.ts`. -/
def renderTemplate (vars : String → Option String)
    (template : String) : String :=
  String.mk (renderChars vars template.data)

/-- JS truthiness of a `string | null` value: `null` and `""` are
falsy, every other string truthy. -/
def jsTruthy : Option String → Bool
  | none => false
  | some s => !(s = "")

/-- Embeds `getSetting` from `src/notify.ts`
(`prisma.setting.findUnique` then `setting?.value ?? null`); the
`Setting` table is a parameter `settings`. -/
def getSetting (settings : String → Option String)
    (key : String) : Option String :=
  settings key

/-- Embeds `resolveTemplate` from `src/notify.ts`:
`if (websiteTemplate) return websiteTemplate;` then
`if (settingDefault) return settingDefault;` then the hard-coded
default. -/
def resolveTemplate (settings : String → Option String)
    (websiteTemplate : Option String) (settingKey : String)
    (hardcodedDefault : String) : String :=
  if jsTruthy websiteTemplate then websiteTemplate.getD ""
  else if jsTruthy (getSetting settings settingKey) then
    (getSetting settings settingKey).getD ""
  else hardcodedDefault

/-- Hard-coded fallback down template (`DEFAULT_DOWN_TEMPLATE` in
`src/notify.ts`). -/
def DEFAULT_DOWN_TEMPLATE : String :=
  "🔴 *{name}* is DOWN\nURL: {url}\nError: {error}\nTime: {time}"

/-- Hard-coded fallback up template (`DEFAULT_UP_TEMPLATE` in
`src/notify.ts`). -/
def DEFAULT_UP_TEMPLATE : String :=
  "🟢 *{name}* is back UP\nURL: {url}\nDowntime: {downtime}\nTime: {time}"

/-- The `Website` fields `notifyDown`/`notifyUp`/`sendNotification`
read. `notifyTarget` is optional (`null` and `""` are both treated as
"no recipient configured" by the code's truthiness tests). -/
structure Website where
  name : String
  url : String
  downTemplate : Option String
  upTemplate : Option String
  notifyType : String
  notifyTarget : Option String
deriving DecidableEq, Repr

/-- Observable outcome of `sendNotification`: which transport call was
attempted with what payload, or that nothing was attempted, or that a
thrown transport failure was caught and logged. The codomain is this
type — not `Except` — because the whole body sits inside
`try`/`catch`, so the function never rethrows to its caller. -/
inductive NotifyOutcome
  | sentGroup (target message : String)
  | sentDirect (target message : String)
  | skipped
  | failedLogged (err : String)
deriving DecidableEq, Repr

/-- Embeds `sendNotification` from `src/notify.ts`. The transport
collaborators `sendG` (`sendToGroup`) and `sendD` (`sendToNumber`) are
parameters that may fail (`.error` = rejected promise). Branching:
`notifyType === "group" && notifyTarget` → group send; `notifyTarget`
→ direct send; otherwise no attempt. The `catch` turns any failure
into a logged outcome. -/
def sendNotification (sendG sendD : String → String → Except String Unit)
    (w : Website) (message : String) : NotifyOutcome :=
  let body : Except String NotifyOutcome :=
    if (w.notifyType == "group") && jsTruthy w.notifyTarget then
      match sendG (w.notifyTarget.getD "") message with
      | .ok _ => .ok (.sentGroup (w.notifyTarget.getD "") message)
      | .error e => .error e
    else if jsTruthy w.notifyTarget then
      match sendD (w.notifyTarget.getD "") message with
      | .ok _ => .ok (.sentDirect (w.notifyTarget.getD "") message)
      | .error e => .error e
    else
      .ok .skipped
  match body with
  | .ok o => o
  | .error e => .failedLogged e

/-- Variable map `notifyDown` builds: `name, url, error, statusCode,
time` (`statusCode != null ? String(statusCode) : ""`). -/
def downVars (w : Website) (error : String) (statusCode : Option Int)
    (now : String) : String → Option String :=
  fun k =>
    if k = "name" then some w.name
    else if k = "url" then some w.url
    else if k = "error" then some error
    else if k = "statusCode" then
      some (match statusCode with | some c => toString c | none => "")
    else if k = "time" then some now
    else none

/-- Variable map `notifyUp` builds: `name, url, downtime, time` with
`downtime = formatDuration(downtimeSeconds)`. -/
def upVars (w : Website) (downtimeSeconds : Nat)
    (now : String) : String → Option String :=
  fun k =>
    if k = "name" then some w.name
    else if k = "url" then some w.url
    else if k = "downtime" then some (formatDuration downtimeSeconds)
    else if k = "time" then some now
    else none

/-- Embeds `notifyDown` from `src/notify.ts` (`now` is the rendered
`id-ID` / `Asia/Jakarta` timestamp string, taken as a parameter). -/
def notifyDown (settings : String → Option String)
    (sendG sendD : String → String → Except String Unit)
    (w : Website) (error : String) (statusCode : Option Int)
    (now : String) : NotifyOutcome :=
  let template := resolveTemplate settings w.downTemplate
    "defaultDownTemplate" DEFAULT_DOWN_TEMPLATE
  sendNotification sendG sendD w
    (renderTemplate (downVars w error statusCode now) template)

/-- Embeds `notifyUp` from `src/notify.ts`. -/
def notifyUp (settings : String → Option String)
    (sendG sendD : String → String → Except String Unit)
    (w : Website) (downtimeSeconds : Nat) (now : String) : NotifyOutcome :=
  let template := resolveTemplate settings w.upTemplate
    "defaultUpTemplate" DEFAULT_UP_TEMPLATE
  sendNotification sendG sendD w
    (renderTemplate (upVars w downtimeSeconds now) template)

/-- A settings table holding a present-but-empty down template, for
evaluating `resolveTemplate` on a concrete input. -/
def emptyDownSetting : String → Option String :=
  fun k => if k = "defaultDownTemplate" then some "" else none

/-- A concrete site with no notification recipient configured. -/
def siteNoTarget : Website :=
  { name := "Homepage", url := "https://example.test",
    downTemplate := none, upTemplate := none,
    notifyType := "personal", notifyTarget := none }

/-- A concrete site with a direct (personal) recipient configured. -/
def siteWithTarget : Website :=
  { name := "Homepage", url := "https://example.test",
    downTemplate := none, upTemplate := none,
    notifyType := "personal", notifyTarget := some "628123" }

/-- The fields of a `Website` row that `scheduleCheck` reads. -/
structure SchedSite where
  checkInterval : Int
  isActive : Bool
deriving DecidableEq, Repr

/-- What one `scheduleCheck` invocation does to the site's timer
chain: stop it (site gone or deactivated), rearm it after `delayMs`,
or terminate with a propagated error (no rearm). -/
inductive SchedOutcome
  | stopped
  | rearmed (delayMs : Int)
  | errored (err : String)
deriving DecidableEq, Repr

/-- True exactly when the outcome armed the next timer. -/
def SchedOutcome.isRearmed : SchedOutcome → Bool
  | .rearmed _ => true
  | _ => false

/-- Embeds `scheduleCheck` from `src/monitor.ts` (lines 46–62).
`website` is the fresh `findUnique` result; `performResult` is the
outcome of `await performCheck(website.id)`, where `.error` is a
rejected promise (e.g. a persistence failure thrown by a `prisma`
call inside `performCheck`). The source has no `try`/`catch` here:
a rejection propagates out of `scheduleCheck` before the `setTimeout`
rearm line runs, so the match on `performResult` returns `.errored`
without reaching `.rearmed`. -/
def scheduleCheck (website : Option SchedSite)
    (performResult : Except String Unit) : SchedOutcome :=
  match website with
  | none => .stopped
  | some w =>
    if !w.isActive then .stopped
    else
      match performResult with
      | .error e => .errored e
      | .ok _ => .rearmed (w.checkInterval * 1000)

end Uptime

namespace Uptime

/-- Claim C9. For every non-negative whole number of seconds `n`,
`formatDuration` renders `n < 60` as `"<n>s"`, `60 ≤ n < 3600` as
`"<m>m <s>s"` with the seconds part omitted when zero, and `n ≥ 3600`
as `"<h>h <m>m"` with the minutes part omitted when zero — i.e. it
agrees with the spec's rendering rule on every input — and in
particular `formatDuration 125 = "2m 5s"`. -/
theorem formatDuration_matches_spec :
    (∀ n : Nat, formatDuration n = specFormatDuration n) ∧
    formatDuration 125 = "2m 5s" := by
  constructor
  · intro n
    unfold formatDuration specFormatDuration
    by_cases h60 : n < 60
    · simp [h60]
    · by_cases h3600 : n < 3600
      · simp only [h60, if_false, h3600, if_true]
        rcases Nat.eq_zero_or_pos (n % 60) with hz | hp
        · have : (n % 3600) / 60 = n / 60 := by
            congr 1
            exact Nat.mod_eq_of_lt h3600
          simp [hz, this]
        · have : (n % 3600) / 60 = n / 60 := by
            congr 1
            exact Nat.mod_eq_of_lt h3600
          simp [hp, Nat.ne_of_gt hp, this]
      · simp only [h60, if_false, h3600, if_true]
        rcases Nat.eq_zero_or_pos ((n % 3600) / 60) with hz | hp
        · simp [hz]
        · simp [hp, Nat.ne_of_gt hp]
  · rfl

/-- Claim C2. Probe classification in `performCheck`: an HTTP response
with status < 400 yields `up`; status ≥ 400 yields `down` with
`httpCode` set and `errorMessage = "HTTP <code>"`; a timeout-induced
abort yields `down` with no `httpCode` and `errorMessage =
"Timeout (15s)"`; any other network failure yields `down` with no
`httpCode` and the transport error description as `errorMessage`. -/
theorem classifyProbe_spec :
    (∀ c : Nat, c < 400 →
      classifyProbe (.response c) =
        { status := .up, statusCode := some c, errorMessage := none }) ∧
    (∀ c : Nat, 400 ≤ c →
      classifyProbe (.response c) =
        { status := .down, statusCode := some c,
          errorMessage := some ("HTTP " ++ toString c) }) ∧
    (classifyProbe .abortError =
      { status := .down, statusCode := none,
        errorMessage := some "Timeout (15s)" }) ∧
    (∀ m : String, classifyProbe (.networkError m) =
      { status := .down, statusCode := none, errorMessage := some m }) := by
  refine ⟨fun c hc => ?_, fun c hc => ?_, rfl, fun m => rfl⟩
  · simp [classifyProbe, hc]
  · simp [classifyProbe, Nat.not_lt.mpr hc]

/-- Witness for C2 at concrete inputs: HTTP 200 is `up`, HTTP 500 is
`down` with message `"HTTP 500"`. -/
theorem classifyProbe_spec_witness :
    classifyProbe (.response 200) =
      { status := .up, statusCode := some 200, errorMessage := none } ∧
    classifyProbe (.response 500) =
      { status := .down, statusCode := some 500,
        errorMessage := some ("HTTP " ++ toString 500) } :=
  ⟨classifyProbe_spec.1 200 (by decide),
   classifyProbe_spec.2.1 500 (by decide)⟩

theorem openCount_nil : openCount [] = 0 := rfl

theorem openCount_cons (i : Incident) (l : List Incident) :
    openCount (i :: l) =
      (if i.resolvedAt.isNone then 1 else 0) + openCount l := by
  by_cases h : i.resolvedAt.isNone = true
  · simp [openCount, List.filter_cons, h, Nat.add_comm]
  · simp [openCount, List.filter_cons, h]

theorem foldl_pickLater_eq_some (xs : List Incident) (j : Incident) :
    ∃ r, xs.foldl pickLater (some j) = some r ∧
      j.startedAt ≤ r.startedAt := by
  induction xs generalizing j with
  | nil => exact ⟨j, rfl, le_refl _⟩
  | cons x xs ih =>
    simp only [List.foldl_cons]
    by_cases h : j.startedAt < x.startedAt
    · obtain ⟨r, hr, hle⟩ := ih x
      exact ⟨r, by simpa [pickLater, h] using hr,
        le_trans (le_of_lt h) hle⟩
    · obtain ⟨r, hr, hle⟩ := ih j
      exact ⟨r, by simpa [pickLater, h] using hr, hle⟩

theorem foldl_pickLater_mem (xs : List Incident) :
    ∀ (acc : Option Incident) (r : Incident),
      xs.foldl pickLater acc = some r → acc = some r ∨ r ∈ xs := by
  induction xs with
  | nil => exact fun acc r h => Or.inl h
  | cons x xs ih =>
    intro acc r h
    simp only [List.foldl_cons] at h
    rcases ih (pickLater acc x) r h with h' | h'
    · rcases acc with _ | j
      · simp only [pickLater] at h'
        have hx : x = r := Option.some.inj h'
        exact Or.inr (by rw [← hx]; exact List.mem_cons_self x xs)
      · by_cases hlt : j.startedAt < x.startedAt
        · simp only [pickLater, hlt, if_true] at h'
          have hx : x = r := Option.some.inj h'
          exact Or.inr (by rw [← hx]; exact List.mem_cons_self x xs)
        · simp only [pickLater, hlt, if_false] at h'
          exact Or.inl h'
    · exact Or.inr (List.mem_cons_of_mem _ h')

theorem foldl_pickLater_ge (xs : List Incident) :
    ∀ (acc : Option Incident) (i : Incident), i ∈ xs →
      ∃ r, xs.foldl pickLater acc = some r ∧
        i.startedAt ≤ r.startedAt := by
  induction xs with
  | nil => intro _ i h; cases h
  | cons x xs ih =>
    intro acc i h
    simp only [List.foldl_cons]
    rcases List.mem_cons.mp h with rfl | hmem
    · rcases acc with _ | j
      · simpa [pickLater] using foldl_pickLater_eq_some xs i
      · by_cases hlt : j.startedAt < i.startedAt
        · simpa [pickLater, hlt] using foldl_pickLater_eq_some xs i
        · obtain ⟨r, hr, hle⟩ := foldl_pickLater_eq_some xs j
          exact ⟨r, by simpa [pickLater, hlt] using hr,
            le_trans (le_of_not_lt hlt) hle⟩
    · exact ih (pickLater acc x) i hmem

theorem findOpenIncident_mem {l : List Incident} {inc : Incident}
    (h : findOpenIncident l = some inc) :
    inc ∈ l ∧ inc.resolvedAt = none := by
  rcases foldl_pickLater_mem _ none inc h with h' | h'
  · cases h'
  · have hm := List.mem_filter.mp h'
    refine ⟨hm.1, ?_⟩
    have := hm.2
    simpa [Option.isNone_iff_eq_none] using this

theorem findOpenIncident_max {l : List Incident} {inc : Incident}
    (h : findOpenIncident l = some inc) :
    ∀ j ∈ l, j.resolvedAt = none → j.startedAt ≤ inc.startedAt := by
  intro j hj hopen
  have hjf : j ∈ l.filter (fun i => i.resolvedAt.isNone) :=
    List.mem_filter.mpr ⟨hj, by simp [hopen]⟩
  obtain ⟨r, hr, hle⟩ := foldl_pickLater_ge _ none j hjf
  rw [findOpenIncident] at h
  rw [h] at hr
  cases hr
  exact hle

theorem findOpenIncident_eq_none {l : List Incident}
    (h : openCount l = 0) : findOpenIncident l = none := by
  rw [findOpenIncident]
  have hf : l.filter (fun i => i.resolvedAt.isNone) = [] :=
    List.length_eq_zero.mp h
  rw [hf]
  rfl

theorem openCount_eq_zero_of_find_none {l : List Incident}
    (h : findOpenIncident l = none) : openCount l = 0 := by
  rw [findOpenIncident] at h
  rcases heq : l.filter (fun i => i.resolvedAt.isNone) with _ | ⟨x, rest⟩
  · simp [openCount, heq]
  · rw [heq] at h
    simp only [List.foldl_cons] at h
    obtain ⟨r, hr, _⟩ := foldl_pickLater_eq_some rest x
    rw [show pickLater none x = some x from rfl] at h
    rw [hr] at h
    cases h

theorem resolvedWith_resolvedAt (now dur : Int) (i : Incident) :
    (resolvedWith now dur i).resolvedAt = some now := rfl

theorem openCount_resolveIncidentRow_le (now dur : Int) (tid : Nat)
    (l : List Incident) :
    openCount (resolveIncidentRow now dur tid l) ≤ openCount l := by
  induction l with
  | nil => simp [resolveIncidentRow, openCount]
  | cons x xs ih =>
    have hmap : resolveIncidentRow now dur tid (x :: xs)
        = (if x.id = tid then resolvedWith now dur x else x)
          :: resolveIncidentRow now dur tid xs := rfl
    rw [hmap, openCount_cons, openCount_cons]
    by_cases hid : x.id = tid
    · rw [if_pos hid, resolvedWith_resolvedAt]
      simp only [Option.isNone_some]
      rw [if_neg (show ¬((false : Bool) = true) by decide)]
      omega
    · rw [if_neg hid]
      omega

theorem openCount_resolveIncidentRow_eq_zero {l : List Incident}
    {inc : Incident} (now dur : Int) (hmem : inc ∈ l)
    (hopen : inc.resolvedAt = none) (hle : openCount l ≤ 1) :
    openCount (resolveIncidentRow now dur inc.id l) = 0 := by
  induction l with
  | nil => cases hmem
  | cons x xs ih =>
    rw [openCount_cons] at hle
    have hmap : resolveIncidentRow now dur inc.id (x :: xs)
        = (if x.id = inc.id then resolvedWith now dur x else x)
          :: resolveIncidentRow now dur inc.id xs := rfl
    rw [hmap, openCount_cons]
    rcases List.mem_cons.mp hmem with heq | hmem'
    · have hid : x.id = inc.id := by rw [heq]
      have hxopen : x.resolvedAt = none := by rw [← heq]; exact hopen
      have hxs0 : openCount xs = 0 := by
        rw [hxopen] at hle
        simp only [Option.isNone_none, if_true] at hle
        omega
      have h2 := openCount_resolveIncidentRow_le now dur inc.id xs
      rw [if_pos hid, resolvedWith_resolvedAt]
      simp only [Option.isNone_some]
      rw [if_neg (show ¬((false : Bool) = true) by decide)]
      omega
    · by_cases hx : x.resolvedAt.isNone = true
      · exfalso
        have hxs0 : openCount xs = 0 := by
          rw [if_pos hx] at hle
          omega
        have hjf : inc ∈ xs.filter (fun i => i.resolvedAt.isNone) :=
          List.mem_filter.mpr ⟨hmem', by simp [hopen]⟩
        have hnil : xs.filter (fun i => i.resolvedAt.isNone) = [] :=
          List.length_eq_zero.mp hxs0
        rw [hnil] at hjf
        cases hjf
      · have hxs1 : openCount xs ≤ 1 := by
          rw [if_neg hx] at hle
          omega
        have hrec := ih hmem' hxs1
        by_cases hid : x.id = inc.id
        · rw [if_pos hid, resolvedWith_resolvedAt]
          simp only [Option.isNone_some]
          rw [if_neg (show ¬((false : Bool) = true) by decide)]
          omega
        · rw [if_neg hid]
          rw [if_neg hx]
          omega

theorem performCheck_lastStatus (now : Int) (r : ProbeResult) (t : Int)
    (s : SiteState) :
    (performCheck now r t s).1.lastStatus = LastStatus.ofCheck r.status := by
  rcases hs : s.lastStatus with _ | _ | _ <;>
    rcases hr : r.status with _ | _ <;>
      simp only [performCheck, hs, hr] <;>
        first
          | rfl
          | (rcases hf : findOpenIncident _ with _ | inc <;> simp [hf])

theorem performCheck_preserves_inv (now : Int) (r : ProbeResult)
    (t : Int) {s : SiteState} (h : SiteInv s) :
    SiteInv (performCheck now r t s).1 := by
  obtain ⟨h1, h2⟩ := h
  rcases hs : s.lastStatus with _ | _ | _ <;>
    rcases hr : r.status with _ | _
  · -- unknown → up
    refine ⟨by simpa [performCheck, hs, hr] using h1, fun _ => ?_⟩
    simpa [performCheck, hs, hr] using h2 (by rw [hs]; intro hc; cases hc)
  · -- unknown → down
    refine ⟨by simpa [performCheck, hs, hr] using h1, fun hne => ?_⟩
    exact absurd (by simp [performCheck, hs, hr, LastStatus.ofCheck]) hne
  · -- up → up
    have h0 := h2 (by rw [hs]; intro hc; cases hc)
    exact ⟨by simpa [performCheck, hs, hr] using h1,
      fun _ => by simpa [performCheck, hs, hr] using h0⟩
  · -- up → down : a fresh open incident is created
    have h0 := h2 (by rw [hs]; intro hc; cases hc)
    constructor
    · simp only [performCheck, hs, hr]
      rw [openCount_cons]
      simp only [Option.isNone_none, if_true]
      omega
    · intro hne
      exact absurd (by simp [performCheck, hs, hr, LastStatus.ofCheck]) hne
  · -- down → up : the open incident (if any) is resolved
    rcases hf : findOpenIncident s.incidents with _ | inc
    · have h0 := openCount_eq_zero_of_find_none hf
      exact ⟨by simpa [performCheck, hs, hr, hf] using h1,
        fun _ => by simpa [performCheck, hs, hr, hf] using h0⟩
    · obtain ⟨hmem, hopen⟩ := findOpenIncident_mem hf
      have h0 := @openCount_resolveIncidentRow_eq_zero s.incidents inc now
        (Int.fdiv (now - inc.startedAt) 1000) hmem hopen h1
      constructor
      · have := Nat.le_of_eq h0
        simpa [performCheck, hs, hr, hf] using this.trans (Nat.zero_le 1)
      · intro _
        simpa [performCheck, hs, hr, hf] using h0
  · -- down → down
    refine ⟨by simpa [performCheck, hs, hr] using h1, fun hne => ?_⟩
    exact absurd (by simp [performCheck, hs, hr, LastStatus.ofCheck]) hne

theorem runChecks_inv (obs : List Observation) {s : SiteState}
    (h : SiteInv s) : SiteInv (runChecks s obs) := by
  induction obs generalizing s with
  | nil => exact h
  | cons o rest ih =>
    exact ih (performCheck_preserves_inv o.now o.result o.responseTime h)

/-- Claim C1. For every site, the check-processing step preserves the
invariant that at most one Incident with null `resolvedAt` exists for
that site: along any run of `performCheck` steps from the site's
initial state, at most one open Incident exists after every step;
moreover a step creates an Incident only on an up→down transition
(otherwise the incident count is unchanged) and touches existing
Incidents only on a down→up transition (otherwise every existing
Incident row survives unmodified). -/
theorem performCheck_at_most_one_open_incident :
    (∀ obs : List Observation,
      openCount (runChecks initialState obs).incidents ≤ 1) ∧
    (∀ (now : Int) (r : ProbeResult) (t : Int) (s : SiteState),
      ¬(s.lastStatus = .up ∧ r.status = .down) →
      (performCheck now r t s).1.incidents.length = s.incidents.length) ∧
    (∀ (now : Int) (r : ProbeResult) (t : Int) (s : SiteState),
      ¬(s.lastStatus = .down ∧ r.status = .up) →
      ∀ i ∈ s.incidents, i ∈ (performCheck now r t s).1.incidents) := by
  refine ⟨fun obs => ?_, fun now r t s h => ?_, fun now r t s h i hi => ?_⟩
  · exact (runChecks_inv obs ⟨by decide, fun _ => by decide⟩).1
  · rcases hs : s.lastStatus with _ | _ | _ <;>
      rcases hr : r.status with _ | _
    · simp [performCheck, hs, hr]
    · simp [performCheck, hs, hr]
    · simp [performCheck, hs, hr]
    · exact absurd ⟨hs, hr⟩ h
    · rcases hf : findOpenIncident s.incidents with _ | inc
      · simp [performCheck, hs, hr, hf]
      · simp [performCheck, hs, hr, hf, resolveIncidentRow]
    · simp [performCheck, hs, hr]
  · rcases hs : s.lastStatus with _ | _ | _ <;>
      rcases hr : r.status with _ | _
    · simpa [performCheck, hs, hr] using hi
    · simpa [performCheck, hs, hr] using hi
    · simpa [performCheck, hs, hr] using hi
    · simp only [performCheck, hs, hr]
      exact List.mem_cons_of_mem _ hi
    · exact absurd ⟨hs, hr⟩ h
    · simpa [performCheck, hs, hr] using hi

/-- Witness for C1: the empty run satisfies the invariant, and an
up→up step at a concrete state changes no incident count. -/
theorem performCheck_at_most_one_open_incident_witness :
    openCount (runChecks initialState []).incidents ≤ 1 ∧
    (performCheck 0 probeUp 1 initialState).1.incidents.length =
      initialState.incidents.length :=
  ⟨performCheck_at_most_one_open_incident.1 [],
   performCheck_at_most_one_open_incident.2.1 0 probeUp 1 initialState
     (by decide)⟩

/-- Claim C6. For every check whose transition is up→up, down→down, or
whose previous status is unknown, `performCheck` creates no Incident,
mutates no existing Incident (the incident list is left exactly as it
was) and triggers no notification; repeating such a transition any
number of times leaves the Incident store unchanged. -/
theorem performCheck_no_transition_idempotent (now : Int)
    (r : ProbeResult) (t : Int) (s : SiteState)
    (h : s.lastStatus = .unknown ∨
      s.lastStatus = LastStatus.ofCheck r.status) :
    (performCheck now r t s).2 = none ∧
    (performCheck now r t s).1.incidents = s.incidents ∧
    ∀ n : Nat, (iterateCheck now r t n s).incidents = s.incidents := by
  have step : ∀ s' : SiteState,
      (s'.lastStatus = .unknown ∨
        s'.lastStatus = LastStatus.ofCheck r.status) →
      (performCheck now r t s').2 = none ∧
        (performCheck now r t s').1.incidents = s'.incidents := by
    intro s' h'
    rcases h' with h' | h'
    · rcases hr : r.status with _ | _
      · exact ⟨by simp [performCheck, h', hr],
          by simp [performCheck, h', hr]⟩
      · exact ⟨by simp [performCheck, h', hr],
          by simp [performCheck, h', hr]⟩
    · rcases hr : r.status with _ | _
      · rw [hr] at h'
        simp only [LastStatus.ofCheck] at h'
        exact ⟨by simp [performCheck, h', hr],
          by simp [performCheck, h', hr]⟩
      · rw [hr] at h'
        simp only [LastStatus.ofCheck] at h'
        exact ⟨by simp [performCheck, h', hr],
          by simp [performCheck, h', hr]⟩
  suffices hiter : ∀ (n : Nat) (s' : SiteState),
      (s'.lastStatus = .unknown ∨
        s'.lastStatus = LastStatus.ofCheck r.status) →
      (iterateCheck now r t n s').incidents = s'.incidents by
    exact ⟨(step s h).1, (step s h).2, fun n => hiter n s h⟩
  intro n
  induction n with
  | zero => intro s' _; rfl
  | succ m ih =>
    intro s' h'
    calc (iterateCheck now r t (m + 1) s').incidents
        = (iterateCheck now r t m (performCheck now r t s').1).incidents :=
          rfl
      _ = (performCheck now r t s').1.incidents :=
          ih _ (Or.inr (performCheck_lastStatus now r t s'))
      _ = s'.incidents := (step s' h').2

/-- Witness for C6: an unknown→up tick at the initial state emits no
event, and three repeated such ticks leave the incident store empty. -/
theorem performCheck_no_transition_idempotent_witness :
    (performCheck 0 probeUp 5 initialState).2 = none ∧
    (iterateCheck 0 probeUp 5 3 initialState).incidents =
      initialState.incidents :=
  ⟨(performCheck_no_transition_idempotent 0 probeUp 5 initialState
      (Or.inl rfl)).1,
   (performCheck_no_transition_idempotent 0 probeUp 5 initialState
      (Or.inl rfl)).2.2 3⟩

/-- Claim C7. On a down→up transition when an open Incident exists for
the site, `performCheck` resolves the most recent open Incident — the
one `findOpenIncident` returns, whose `startedAt` is maximal among the
open ones — setting `resolvedAt` to the current time and `duration` to
`resolvedAt − startedAt` in whole seconds (`Math.floor` of the
millisecond difference over 1000), a value that is ≥ 0 whenever the
incident did not start in the future, and the up-notification carries
that computed duration. -/
theorem performCheck_down_up_resolves (now : Int) (r : ProbeResult)
    (t : Int) (s : SiteState) (inc : Incident)
    (h1 : s.lastStatus = .down) (h2 : r.status = .up)
    (h3 : findOpenIncident s.incidents = some inc)
    (h4 : inc.startedAt ≤ now) :
    (performCheck now r t s).2 =
      some (.up (Int.fdiv (now - inc.startedAt) 1000)) ∧
    0 ≤ Int.fdiv (now - inc.startedAt) 1000 ∧
    inc.resolvedAt = none ∧
    (∀ j ∈ s.incidents, j.resolvedAt = none →
      j.startedAt ≤ inc.startedAt) ∧
    resolvedWith now (Int.fdiv (now - inc.startedAt) 1000) inc ∈
      (performCheck now r t s).1.incidents := by
  obtain ⟨hmem, hopen⟩ := findOpenIncident_mem h3
  have hdur : 0 ≤ Int.fdiv (now - inc.startedAt) 1000 := by
    rw [Int.fdiv_eq_ediv _ (by norm_num)]
    exact Int.ediv_nonneg (by omega) (by norm_num)
  have hmm : resolvedWith now (Int.fdiv (now - inc.startedAt) 1000) inc ∈
      resolveIncidentRow now (Int.fdiv (now - inc.startedAt) 1000)
        inc.id s.incidents := by
    have hmap := List.mem_map_of_mem
      (fun i => if i.id = inc.id then
        resolvedWith now (Int.fdiv (now - inc.startedAt) 1000) i else i)
      hmem
    simpa [resolveIncidentRow] using hmap
  refine ⟨?_, hdur, hopen, findOpenIncident_max h3, ?_⟩
  · simp [performCheck, h1, h2, h3]
  · simpa [performCheck, h1, h2, h3] using hmm

/-- Witness for C7: a site down since time 0 comes back up at
t = 125000 ms; the incident is resolved with duration 125 s and the up
event carries 125. -/
theorem performCheck_down_up_resolves_witness :
    (performCheck 125000 probeUp 42 downState).2 =
      some (.up (Int.fdiv (125000 - inc0.startedAt) 1000)) ∧
    resolvedWith 125000 (Int.fdiv (125000 - inc0.startedAt) 1000) inc0 ∈
      (performCheck 125000 probeUp 42 downState).1.incidents :=
  ⟨(performCheck_down_up_resolves 125000 probeUp 42 downState inc0
      rfl rfl rfl (by decide)).1,
   (performCheck_down_up_resolves 125000 probeUp 42 downState inc0
      rfl rfl rfl (by decide)).2.2.2.2⟩

/-- Claim C10. On a down→up transition when no open Incident exists
for the site, `performCheck` still records the Check and updates the
site's last-status fields, but resolves no Incident and sends no
up-notification (and, being total, raises no error). -/
theorem performCheck_down_up_no_open (now : Int) (r : ProbeResult)
    (t : Int) (s : SiteState)
    (h1 : s.lastStatus = .down) (h2 : r.status = .up)
    (h3 : openCount s.incidents = 0) :
    (performCheck now r t s).1.incidents = s.incidents ∧
    (performCheck now r t s).2 = none ∧
    (performCheck now r t s).1.checks =
      { status := r.status, statusCode := r.statusCode,
        responseTime := t, errorMessage := r.errorMessage,
        checkedAt := now } :: s.checks ∧
    (performCheck now r t s).1.lastStatus = .up ∧
    (performCheck now r t s).1.lastCheckedAt = some now ∧
    (performCheck now r t s).1.lastResponseMs = some t := by
  have hf := findOpenIncident_eq_none h3
  refine ⟨?_, ?_, ?_, ?_, ?_, ?_⟩ <;>
    simp [performCheck, h1, h2, hf, LastStatus.ofCheck]

/-- Witness for C10: a down site with an empty incident table comes
back up; no incident is touched and no event is emitted, while the
check row and status fields are written. -/
theorem performCheck_down_up_no_open_witness :
    (performCheck 7 probeUp 3 downStateNoInc).1.incidents =
      downStateNoInc.incidents ∧
    (performCheck 7 probeUp 3 downStateNoInc).2 = none ∧
    (performCheck 7 probeUp 3 downStateNoInc).1.lastStatus = .up :=
  ⟨(performCheck_down_up_no_open 7 probeUp 3 downStateNoInc
      rfl rfl rfl).1,
   (performCheck_down_up_no_open 7 probeUp 3 downStateNoInc
      rfl rfl rfl).2.1,
   (performCheck_down_up_no_open 7 probeUp 3 downStateNoInc
      rfl rfl rfl).2.2.2.1⟩

theorem jsTruthy_none : jsTruthy none = false := rfl

theorem jsTruthy_some_empty : jsTruthy (some "") = false := rfl

theorem jsTruthy_some_ne {s : String} (h : s ≠ "") :
    jsTruthy (some s) = true := by
  simp [jsTruthy, h]

/-- Claim C5 is refuted on the code at a present-but-empty global
setting: with no site override and `defaultDownTemplate` present in
the Setting table with value `""`, the claim says the global Setting
default (the empty string) is used, but `resolveTemplate` falls
through to the hard-coded fallback, which is not the empty string. -/
theorem resolveTemplate_empty_setting_counterexample :
    getSetting emptyDownSetting "defaultDownTemplate" = some "" ∧
    resolveTemplate emptyDownSetting none "defaultDownTemplate"
      DEFAULT_DOWN_TEMPLATE = DEFAULT_DOWN_TEMPLATE ∧
    DEFAULT_DOWN_TEMPLATE ≠ "" := by
  refine ⟨rfl, rfl, by decide⟩

/-- Claim C5 (amended). For every event kind, template resolution
returns exactly one of three candidates with this precedence: the
site's own override template when it is non-empty; otherwise the
global Setting default for that event kind when present *and
non-empty*; otherwise the hard-coded fallback template — never a merge
of them. In particular, with no override and no (or an empty) global
setting, the hard-coded fallback is used verbatim. -/
theorem resolveTemplate_precedence (settings : String → Option String)
    (ov : Option String) (key : String) (fb : String) :
    (∀ tpl : String, ov = some tpl → tpl ≠ "" →
      resolveTemplate settings ov key fb = tpl) ∧
    ((ov = none ∨ ov = some "") → ∀ v : String,
      getSetting settings key = some v → v ≠ "" →
      resolveTemplate settings ov key fb = v) ∧
    ((ov = none ∨ ov = some "") →
      (getSetting settings key = none ∨
        getSetting settings key = some "") →
      resolveTemplate settings ov key fb = fb) ∧
    (resolveTemplate settings ov key fb = ov.getD "" ∨
      resolveTemplate settings ov key fb =
        (getSetting settings key).getD "" ∨
      resolveTemplate settings ov key fb = fb) := by
  refine ⟨?_, ?_, ?_, ?_⟩
  · intro tpl hov htpl
    subst hov
    unfold resolveTemplate
    rw [if_pos (jsTruthy_some_ne htpl)]
    rfl
  · intro hov v hv hvne
    have hovf : jsTruthy ov = false := by
      rcases hov with h | h <;> rw [h] <;> rfl
    unfold resolveTemplate
    rw [hovf]
    rw [hv, if_pos (jsTruthy_some_ne hvne)]
    simp
  · intro hov hset
    have hovf : jsTruthy ov = false := by
      rcases hov with h | h <;> rw [h] <;> rfl
    have hsetf : jsTruthy (getSetting settings key) = false := by
      rcases hset with h | h <;> rw [h] <;> rfl
    unfold resolveTemplate
    rw [hovf, hsetf]
    simp
  · unfold resolveTemplate
    by_cases h1 : jsTruthy ov = true
    · rw [h1]
      simp
    · rw [Bool.not_eq_true] at h1
      rw [h1]
      by_cases h2 : jsTruthy (getSetting settings key) = true
      · rw [h2]
        simp
      · rw [Bool.not_eq_true] at h2
        rw [h2]
        simp

/-- Witness for the amended C5: with no override and no global
setting, the hard-coded fallback down template is used verbatim; with
a non-empty override, the override wins. -/
theorem resolveTemplate_precedence_witness :
    resolveTemplate (fun _ => none) none "defaultDownTemplate"
      DEFAULT_DOWN_TEMPLATE = DEFAULT_DOWN_TEMPLATE ∧
    resolveTemplate (fun _ => none) (some "custom {name}")
      "defaultDownTemplate" DEFAULT_DOWN_TEMPLATE = "custom {name}" :=
  ⟨(resolveTemplate_precedence (fun _ => none) none "defaultDownTemplate"
      DEFAULT_DOWN_TEMPLATE).2.2.1 (Or.inl rfl) (Or.inl rfl),
   (resolveTemplate_precedence (fun _ => none) (some "custom {name}")
      "defaultDownTemplate" DEFAULT_DOWN_TEMPLATE).1 "custom {name}"
      rfl (by decide)⟩

theorem sendNotification_skipped
    (sendG sendD : String → String → Except String Unit)
    (w : Website) (msg : String)
    (h : w.notifyTarget = none ∨ w.notifyTarget = some "") :
    sendNotification sendG sendD w msg = .skipped := by
  have hf : jsTruthy w.notifyTarget = false := by
    rcases h with h | h <;> rw [h] <;> rfl
  unfold sendNotification
  rw [hf]
  simp

theorem sendNotification_failed
    (sendG sendD : String → String → Except String Unit)
    (w : Website) (msg : String) (e : String)
    (hg : ∀ target m, sendG target m = .error e)
    (hd : ∀ target m, sendD target m = .error e)
    (ht : jsTruthy w.notifyTarget = true) :
    sendNotification sendG sendD w msg = .failedLogged e := by
  unfold sendNotification
  rw [ht, hg, hd]
  by_cases hty : (w.notifyType == "group") = true
  · rw [hty]
    simp
  · rw [Bool.not_eq_true] at hty
    rw [hty]
    simp

/-- Claim C8. `notifyDown` and `notifyUp` never propagate a failure
from the send collaborator to their caller: their codomain is
`NotifyOutcome`, not `Except` — the source wraps the whole send in
`try`/`catch` — and a failing collaborator yields the caught-and-logged
outcome; a site with no recipient target configured results in no send
attempt (`.skipped`) and no error. -/
theorem notify_never_propagates (settings : String → Option String)
    (w : Website) (err : String) (sc : Option Int) (now : String)
    (secs : Nat) :
    ((w.notifyTarget = none ∨ w.notifyTarget = some "") →
      ∀ sendG sendD : String → String → Except String Unit,
        notifyDown settings sendG sendD w err sc now = .skipped ∧
        notifyUp settings sendG sendD w secs now = .skipped) ∧
    (∀ (e : String) (sendG sendD : String → String → Except String Unit),
      (∀ target m, sendG target m = .error e) →
      (∀ target m, sendD target m = .error e) →
      jsTruthy w.notifyTarget = true →
      notifyDown settings sendG sendD w err sc now = .failedLogged e ∧
      notifyUp settings sendG sendD w secs now = .failedLogged e) := by
  constructor
  · intro h sendG sendD
    exact ⟨sendNotification_skipped sendG sendD w _ h,
      sendNotification_skipped sendG sendD w _ h⟩
  · intro e sendG sendD hg hd ht
    exact ⟨sendNotification_failed sendG sendD w _ e hg hd ht,
      sendNotification_failed sendG sendD w _ e hg hd ht⟩

/-- Witness for C8: a site with no target skips silently even with a
healthy transport; a site with a target and a transport that always
throws yields the caught-and-logged outcome. -/
theorem notify_never_propagates_witness :
    notifyDown (fun _ => none) (fun _ _ => .ok ()) (fun _ _ => .ok ())
      siteNoTarget "HTTP 500" (some 500) "1/1/2026" = .skipped ∧
    notifyUp (fun _ => none) (fun _ _ => .error "socket closed")
      (fun _ _ => .error "socket closed") siteWithTarget 125 "1/1/2026"
      = .failedLogged "socket closed" :=
  ⟨((notify_never_propagates (fun _ => none) siteNoTarget "HTTP 500"
      (some 500) "1/1/2026" 125).1 (Or.inl rfl) _ _).1,
   ((notify_never_propagates (fun _ => none) siteWithTarget "HTTP 500"
      (some 500) "1/1/2026" 125).2 "socket closed" _ _
      (fun _ _ => rfl) (fun _ _ => rfl) rfl).2⟩

/-- Claim C3 is refuted on the code: `scheduleCheck` has no
`try`/`catch` around `await performCheck`, so when persistence fails
during an active site's tick the rejection propagates and the
`setTimeout` rearm line never runs — the outcome is `.errored`, not
`.rearmed`, i.e. the failed site's next timer is not armed. -/
theorem scheduleCheck_failure_not_rearmed_counterexample :
    scheduleCheck (some { checkInterval := 60, isActive := true })
      (.error "persistence failure") = .errored "persistence failure" ∧
    (scheduleCheck (some { checkInterval := 60, isActive := true })
      (.error "persistence failure")).isRearmed = false :=
  ⟨rfl, rfl⟩

/-- Claim C3 (amended). If persisting the Check or Incident fails
during an active site's tick, the failure propagates out of
`scheduleCheck` and that site's next timer is not armed (its check
chain stops); each site's timer is independent, so other sites are
unaffected: an active site whose tick succeeds is rearmed after
`checkInterval` seconds, and a deleted site's chain stops cleanly. -/
theorem scheduleCheck_failure_propagates :
    (∀ (w : SchedSite) (e : String), w.isActive = true →
      scheduleCheck (some w) (.error e) = .errored e ∧
      (scheduleCheck (some w) (.error e)).isRearmed = false) ∧
    (∀ w : SchedSite, w.isActive = true →
      scheduleCheck (some w) (.ok ()) = .rearmed (w.checkInterval * 1000)) ∧
    (∀ r : Except String Unit, scheduleCheck none r = .stopped) := by
  refine ⟨fun w e hw => ?_, fun w hw => ?_, fun r => rfl⟩
  · exact ⟨by simp [scheduleCheck, hw],
      by simp [scheduleCheck, hw, SchedOutcome.isRearmed]⟩
  · simp [scheduleCheck, hw]

/-- Witness for the amended C3 at a concrete site: a failing tick ends
errored and unarmed, a succeeding tick is rearmed. -/
theorem scheduleCheck_failure_propagates_witness :
    scheduleCheck (some { checkInterval := 30, isActive := true })
      (.error "db down") = .errored "db down" ∧
    scheduleCheck (some { checkInterval := 30, isActive := true })
      (.ok ()) = .rearmed (30 * 1000) :=
  ⟨(scheduleCheck_failure_propagates.1
      { checkInterval := 30, isActive := true } "db down" rfl).1,
   scheduleCheck_failure_propagates.2.1
      { checkInterval := 30, isActive := true } rfl⟩

theorem mem_of_mem_dropWhile (p : Char → Bool) (l : List Char)
    (x : Char) (h : x ∈ l.dropWhile p) : x ∈ l := by
  induction l with
  | nil => simpa using h
  | cons c cs ih =>
    rw [List.dropWhile_cons] at h
    by_cases hc : p c = true
    · rw [if_pos hc] at h
      exact List.mem_cons_of_mem _ (ih h)
    · rw [if_neg hc] at h
      exact h

theorem takeWhile_all_append (p : Char → Bool) (l1 : List Char)
    (b : Char) (l2 : List Char) (h : ∀ c ∈ l1, p c = true)
    (hb : p b = false) : (l1 ++ b :: l2).takeWhile p = l1 := by
  induction l1 with
  | nil =>
    rw [List.nil_append, List.takeWhile_cons, hb]
    rfl
  | cons c cs ih =>
    have hc : p c = true := h c (List.mem_cons_self c cs)
    rw [List.cons_append, List.takeWhile_cons, hc]
    simp only [if_true]
    rw [ih (fun d hd => h d (List.mem_cons_of_mem _ hd))]

theorem dropWhile_all_append (p : Char → Bool) (l1 : List Char)
    (b : Char) (l2 : List Char) (h : ∀ c ∈ l1, p c = true)
    (hb : p b = false) : (l1 ++ b :: l2).dropWhile p = b :: l2 := by
  induction l1 with
  | nil =>
    rw [List.nil_append, List.dropWhile_cons, hb]
    rfl
  | cons c cs ih =>
    have hc : p c = true := h c (List.mem_cons_self c cs)
    rw [List.cons_append, List.dropWhile_cons, hc]
    simp only [if_true]
    exact ih (fun d hd => h d (List.mem_cons_of_mem _ hd))

theorem renderChars_nil (vars : String → Option String) :
    renderChars vars [] = [] := by
  simp [renderChars]

theorem renderChars_cons_of_ne (vars : String → Option String)
    (c : Char) (l : List Char) (hc : c ≠ '{') :
    renderChars vars (c :: l) = c :: renderChars vars l := by
  rw [renderChars]
  rw [if_neg]
  intro h
  exact hc h.1

theorem renderChars_placeholder (vars : String → Option String)
    (ident rest : List Char) (hne : ident ≠ [])
    (hword : ∀ c ∈ ident, isWordChar c = true) :
    renderChars vars ('{' :: (ident ++ '}' :: rest))
      = (lookupVar vars (String.mk ident)).data ++ renderChars vars rest := by
  have htake := takeWhile_all_append isWordChar ident '}' rest hword rfl
  have hdrop := dropWhile_all_append isWordChar ident '}' rest hword rfl
  rw [renderChars]
  rw [if_pos ⟨rfl, by rw [htake]; exact hne, by rw [hdrop]; rfl⟩]
  rw [htake, hdrop]
  rfl

theorem renderChars_append_of_no_lbrace (vars : String → Option String)
    (lit rest : List Char) (h : ∀ c ∈ lit, c ≠ '{') :
    renderChars vars (lit ++ rest) = lit ++ renderChars vars rest := by
  induction lit with
  | nil => rw [List.nil_append, List.nil_append]
  | cons c cs ih =>
    rw [List.cons_append, List.cons_append,
      renderChars_cons_of_ne vars c _ (h c (List.mem_cons_self c cs)),
      ih (fun d hd => h d (List.mem_cons_of_mem _ hd))]

theorem renderChars_no_rbrace (vars : String → Option String)
    (l : List Char) (h : ∀ c ∈ l, c ≠ '}') :
    renderChars vars l = l := by
  induction l with
  | nil => exact renderChars_nil vars
  | cons c cs ih =>
    have hcs := ih (fun d hd => h d (List.mem_cons_of_mem _ hd))
    by_cases hc : c = '{'
    · subst hc
      rw [renderChars]
      rw [if_neg, hcs]
      rintro ⟨-, -, hhead⟩
      rcases hdw : cs.dropWhile isWordChar with _ | ⟨x, xs⟩
      · rw [hdw] at hhead
        cases hhead
      · rw [hdw] at hhead
        have hx : x = '}' := by
          simpa using hhead
        have hmem : '}' ∈ cs.dropWhile isWordChar := by
          rw [hdw, hx]
          exact List.mem_cons_self _ _
        exact h '}' (List.mem_cons_of_mem _
          (mem_of_mem_dropWhile isWordChar cs '}' hmem)) rfl
    · rw [renderChars_cons_of_ne vars c cs hc, hcs]

theorem renderChars_empty_braces (vars : String → Option String)
    (rest : List Char) :
    renderChars vars ('{' :: '}' :: rest)
      = '{' :: '}' :: renderChars vars rest := by
  rw [renderChars]
  rw [if_neg]
  · rw [renderChars_cons_of_ne vars '}' rest (by decide)]
  · rintro ⟨-, htw, -⟩
    apply htw
    rw [List.takeWhile_cons]
    rw [show isWordChar '}' = false from rfl]
    rfl

theorem string_data_ext (a b : String) (h : a.data = b.data) :
    a = b := by
  cases a
  cases b
  cases h
  rfl

theorem data_append_eq (a b : String) :
    (a ++ b).data = a.data ++ b.data := by
  rw [String.congr_append]

/-- Claim C4. For every template string and variable map,
`renderTemplate` replaces every placeholder `{identifier}` —
a left-brace, a non-empty run of word characters, a right-brace —
with the map's value for that identifier (conjunct 1, which by
induction on the number of placeholders covers every placeholder in
the template), replaces placeholders whose identifier is absent from
the map with the empty string (conjunct 1 with `vars ident = none`,
since the substituted value is `(vars ident).getD ""`), preserves all
literal text outside placeholders verbatim (conjuncts 1 and 2), and
leaves malformed or unclosed placeholder syntax untouched rather than
failing: any text without a closing brace, and braces with an empty
identifier, pass through verbatim (conjuncts 3 and 4). -/
theorem renderTemplate_spec :
    (∀ (vars : String → Option String) (lit ident rest : String),
      (∀ c ∈ lit.data, c ≠ '{') → ident ≠ "" →
      (∀ c ∈ ident.data, isWordChar c = true) →
      renderTemplate vars (lit ++ "\x7b" ++ ident ++ "\x7d" ++ rest)
        = lit ++ (vars ident).getD "" ++ renderTemplate vars rest) ∧
    (∀ (vars : String → Option String) (s : String),
      (∀ c ∈ s.data, c ≠ '{') → renderTemplate vars s = s) ∧
    (∀ (vars : String → Option String) (s : String),
      (∀ c ∈ s.data, c ≠ '}') → renderTemplate vars s = s) ∧
    (∀ (vars : String → Option String) (rest : String),
      renderTemplate vars ("\x7b\x7d" ++ rest) = "\x7b\x7d" ++ renderTemplate vars rest) := by
  refine ⟨?_, ?_, ?_, ?_⟩
  · intro vars lit ident rest hlit hne hword
    have hne' : ident.data ≠ [] := by
      intro hd
      exact hne (string_data_ext ident "" hd)
    apply string_data_ext
    have hL : (renderTemplate vars (lit ++ "\x7b" ++ ident ++ "\x7d" ++ rest)).data
        = renderChars vars ((lit ++ "\x7b" ++ ident ++ "\x7d" ++ rest)).data := rfl
    rw [hL]
    have hlb : ("\x7b" : String).data = ['{'] := rfl
    have hrb : ("\x7d" : String).data = ['}'] := rfl
    simp only [data_append_eq, hlb, hrb, List.append_assoc,
      List.singleton_append, List.cons_append, List.nil_append]
    rw [renderChars_append_of_no_lbrace vars lit.data _ hlit]
    rw [renderChars_placeholder vars ident.data rest.data hne' hword]
    rfl
  · intro vars s h
    apply string_data_ext
    rw [show (renderTemplate vars s).data = renderChars vars s.data from rfl]
    have : ∀ l : List Char, (∀ c ∈ l, c ≠ '{') →
        renderChars vars l = l := by
      intro l hl
      induction l with
      | nil => exact renderChars_nil vars
      | cons c cs ih =>
        rw [renderChars_cons_of_ne vars c cs
          (hl c (List.mem_cons_self c cs)),
          ih (fun d hd => hl d (List.mem_cons_of_mem _ hd))]
    exact this s.data h
  · intro vars s h
    apply string_data_ext
    exact renderChars_no_rbrace vars s.data h
  · intro vars rest
    apply string_data_ext
    have hL : (renderTemplate vars ("\x7b\x7d" ++ rest)).data
        = renderChars vars (("\x7b\x7d" ++ rest)).data := rfl
    rw [hL]
    have hbb : ("\x7b\x7d" : String).data = '{' :: '}' :: [] := rfl
    simp only [data_append_eq, hbb, List.cons_append, List.nil_append]
    rw [renderChars_empty_braces vars rest.data]
    rfl

/-- Witness for C4 at concrete inputs: a known key is substituted, an
unknown key renders as the empty string with literal text preserved,
brace-free text is untouched, and an unclosed placeholder is left
as-is. -/
theorem renderTemplate_spec_witness :
    renderTemplate (fun k => if k = "name" then some "Homepage" else none)
      ("Site " ++ "\x7b" ++ "name" ++ "\x7d" ++ " is up")
      = "Site " ++ "Homepage" ++
        renderTemplate (fun k => if k = "name" then some "Homepage" else none)
          " is up" ∧
    renderTemplate (fun _ => none) "no placeholders here" =
      "no placeholders here" ∧
    renderTemplate (fun _ => none) "unclosed \x7bname" = "unclosed \x7bname" :=
  ⟨by
    have h := renderTemplate_spec.1
      (fun k => if k = "name" then some "Homepage" else none)
      "Site " "name" " is up" (by decide) (by decide) (by decide)
    simpa using h,
   renderTemplate_spec.2.1 (fun _ => none) "no placeholders here"
     (by decide),
   renderTemplate_spec.2.2.1 (fun _ => none) "unclosed \x7bname"
     (by decide)⟩

end Uptime
